import Mathlib

/-!
# Verification development for the `bom_extractor` repository

Shallow embedding of the Python sources `src/bom_extractor/extractor.py`,
`src/bom_extractor/learning.py` and the strict variant
`src/src/bom_extractor/extractor.py`.

Modelling conventions:

* Python strings are Lean `String`s (operated on as `List Char`); the regex
  character classes of the source (`\d`, `\s`, `[A-Za-z]`, ...) are modelled
  over the ASCII / Latin-1 alphabet that the source's German/English inputs
  use.  Regexes are modelled by hand-written matchers that reproduce the
  leftmost / greedy-with-backtracking semantics of `re` on the patterns at
  hand.
* Python `dict`s become association lists with first-match lookup;
  `d[k] = v` replaces the first binding in place (or appends), matching
  insertion-order semantics; `setdefault` appends only when the key is absent.
* Python numbers become `ℚ` (the float arithmetic of the source is modelled
  exactly over the rationals).  `round(x, n)` and `f"{x:.1f}"` use
  round-half-to-even, like Python.
* The confidence of `_score_from_features` is
  `logistic(log g + Σ log rᵢ) = (g * Π rᵢ) / (1 + g * Π rᵢ)`; the embedding
  uses this exact rational form of the same function.
* File-system persistence (`_save_state` / `_load_state`), locking, and the
  `summary()["top_features"]` ranking (consumed by no modelled caller) are
  I/O respectively presentation concerns and are not part of the state
  transition being verified; the state transition of `record_feedback` and
  the metadata fields `annotate_result` writes are modelled in full.
-/

namespace BomSpec

/-! ## Basic Python-style helpers -/

/-- ASCII decimal digit: the alphabet of `\d` on this code's inputs. -/
def isAsciiDigit (c : Char) : Bool := '0' ≤ c && c ≤ '9'

/-- ASCII letter: the class `[A-Za-z]`. -/
def isAsciiAlpha (c : Char) : Bool := ('a' ≤ c && c ≤ 'z') || ('A' ≤ c && c ≤ 'Z')

/-- Python `\s` / `str.strip()` whitespace (ASCII range). -/
def isPyWs (c : Char) : Bool :=
  c = ' ' || c = '\t' || c = '\n' || c = '\r' || c = '\x0b' || c = '\x0c'

/-- Lower-casing as `str.lower()` acts on this code's ASCII/German alphabet. -/
def pyLowerChar (c : Char) : Char :=
  if 'A' ≤ c && c ≤ 'Z' then Char.ofNat (c.toNat + 32)
  else if c = 'Ä' then 'ä' else if c = 'Ö' then 'ö' else if c = 'Ü' then 'ü'
  else c

def pyLower (s : String) : String := String.mk (s.data.map pyLowerChar)

/-- `str.strip()` on a char list. -/
def stripList (l : List Char) : List Char :=
  ((l.dropWhile isPyWs).reverse.dropWhile isPyWs).reverse

def pyStrip (s : String) : String := String.mk (stripList s.data)

/-- `str.strip(chars)`: strip any of the given characters from both ends. -/
def stripCharsList (bad : List Char) (l : List Char) : List Char :=
  ((l.dropWhile (· ∈ bad)).reverse.dropWhile (· ∈ bad)).reverse

/-- Association-list lookup, mirroring `dict.get`. -/
def assocGet {κ α : Type} [DecidableEq κ] (d : List (κ × α)) (k : κ) : Option α :=
  match d with
  | [] => none
  | (k', v) :: rest => if k' = k then some v else assocGet rest k

/-- `d[k] = v`: replace the first binding in place, else append. -/
def assocSet {κ α : Type} [DecidableEq κ] (d : List (κ × α)) (k : κ) (v : α) :
    List (κ × α) :=
  match d with
  | [] => [(k, v)]
  | (k', v') :: rest =>
    if k' = k then (k, v) :: rest else (k', v') :: assocSet rest k v

/-- `dict.setdefault(k, v)` (result dictionary only). -/
def assocSetdefault {κ α : Type} [DecidableEq κ] (d : List (κ × α)) (k : κ) (v : α) :
    List (κ × α) :=
  match assocGet d k with
  | some _ => d
  | none => d ++ [(k, v)]

/-- Truthiness of an optional string (`None` and `""` are falsy). -/
def truthy (o : Option String) : Bool :=
  match o with
  | none => false
  | some s => s ≠ ""

/-- Round-half-to-even to an integer, Python's `round(x)`. -/
def roundHalfEvenZ (x : ℚ) : ℤ :=
  let f := ⌊x⌋
  let r := x - (f : ℚ)
  if r < 1/2 then f
  else if 1/2 < r then f + 1
  else if f % 2 = 0 then f else f + 1

/-- Python's `round(x, p)` for `p` decimal places. -/
def pyRound (x : ℚ) (p : ℕ) : ℚ := (roundHalfEvenZ (x * 10 ^ p) : ℚ) / 10 ^ p

/-! ## Data model (`BOMItem`, `BOMExtractionResult`) -/

/-- A Python number that is either an `int` or a `float`
(`_parse_quantity` returns `int(numeric)` when `numeric.is_integer()`). -/
inductive PyNum where
  | int (z : ℤ)
  | float (q : ℚ)
  deriving DecidableEq

/-- `BOMItem` from `extractor.py` (the `confidence` attribute is attached
dynamically by `LearningEngine.annotate_result`). -/
structure BOMItem where
  position : Option String := none
  part_number : Option String := none
  description : Option String := none
  quantity : Option PyNum := none
  unit : Option String := none
  material : Option String := none
  comment : Option String := none
  extras : List (String × String) := []
  confidence : Option ℚ := none
  deriving DecidableEq

/-- A metadata value (`Union[str, List[int], int]` plus the float rate the
learner adds). -/
inductive MetaVal where
  | s (v : String)
  | n (v : ℤ)
  | ns (v : List ℕ)
  | q (v : ℚ)
  deriving DecidableEq

/-- `BOMExtractionResult`. -/
structure BOMExtractionResult where
  items : List BOMItem
  detected_columns : List String
  metadata : List (String × MetaVal)
  deriving DecidableEq

/-! ## `learning.py`: state and scoring -/

def BIAS_PRIOR_POSITIVE : ℚ := 5
def BIAS_PRIOR_NEGATIVE : ℚ := 3

/-- `LearningState` (per-feature positive/negative counters and totals). -/
structure LearningState where
  feature_stats : List (String × ℚ × ℚ) := []
  total_positive : ℚ := 0
  total_negative : ℚ := 0
  version : ℤ := 1
  deriving DecidableEq

/-- `_FEATURE_PRIORS` as the source's dictionary (rationals are the exact
values of the float literals). -/
def FEATURE_PRIORS : List (String × ℚ × ℚ) :=
  [("source::table", 6, 1), ("source::text", 7/2, 2), ("source::geometry", 5/2, 3),
   ("source::fallback", 1, 4), ("mode::table", 5, 3/2), ("mode::interpreted", 5/2, 3),
   ("heuristic::hoch", 11/2, 1), ("heuristic::mittel", 3, 2),
   ("heuristic::niedrig", 6/5, 7/2), ("fields::1", 1, 5/2), ("fields::2", 3/2, 2),
   ("fields::3", 5/2, 3/2), ("fields::4", 3, 6/5), ("fields::5+", 7/2, 1),
   ("has_quantity", 7/2, 1), ("has_part_number", 3, 6/5), ("has_material", 13/5, 7/5)]

/-- `_FEATURE_PRIORS.get(name, FEATURE_PRIOR_DEFAULT)` with
`FEATURE_PRIOR_DEFAULT = (1.0, 1.0)`. -/
def featurePriors (name : String) : ℚ × ℚ :=
  match assocGet FEATURE_PRIORS name with
  | some p => p
  | none => (1, 1)

/-- Field-count used for the `fields::k` feature: a field counts when it is
not `None` and not the empty string (a number is never `""`). -/
def fieldCount (it : BOMItem) : ℕ :=
  (if truthy it.position then 1 else 0) +
  (if truthy it.part_number then 1 else 0) +
  (if truthy it.description then 1 else 0) +
  (if it.quantity.isSome then 1 else 0) +
  (if truthy it.unit then 1 else 0) +
  (if truthy it.material then 1 else 0) +
  (if truthy it.comment then 1 else 0)

/-- `LearningEngine._item_features` (`ctx` is `context.get("mode")`). -/
def itemFeatures (it : BOMItem) (ctx : Option String) : List String :=
  (match assocGet it.extras "source" with
   | some s => ["source::" ++ pyLower s]
   | none => []) ++
  (match ctx with
   | some m => if m ≠ "" then ["mode::" ++ pyLower m] else []
   | none => []) ++
  (match assocGet it.extras "confidence" with
   | some s => if s ≠ "" then ["heuristic::" ++ pyLower (pyStrip s)] else []
   | none => []) ++
  (match assocGet it.extras "component_code" with
   | some s => if s ≠ "" then ["component::" ++ pyLower s] else []
   | none => []) ++
  (if 5 ≤ fieldCount it then ["fields::5+"] else ["fields::" ++ Nat.repr (fieldCount it)]) ++
  (if it.quantity.isSome then ["has_quantity"] else []) ++
  (if truthy it.part_number then ["has_part_number"] else []) ++
  (if truthy it.material then ["has_material"] else [])

/-- Smoothed log-odds ratio of one feature, as the ratio whose `log` the
source adds to the logit. -/
def featureRatio (stats : List (String × ℚ × ℚ)) (name : String) : ℚ :=
  let positive : ℚ := match assocGet stats name with | some pn => pn.1 | none => 0
  let negative : ℚ := match assocGet stats name with | some pn => pn.2 | none => 0
  (positive + (featurePriors name).1) / (negative + (featurePriors name).2)

/-- The exponentiated logit of `_score_from_features`:
`exp(log g + Σ log rᵢ) = g * Π rᵢ`. -/
def scoreOdds (s : LearningState) (features : List String) : ℚ :=
  features.foldl (fun acc name => acc * featureRatio s.feature_stats name)
    ((s.total_positive + BIAS_PRIOR_POSITIVE) / (s.total_negative + BIAS_PRIOR_NEGATIVE))

/-- `LearningEngine._score_from_features`: `logistic(logit) = odds/(1+odds)`. -/
def scoreFromFeatures (s : LearningState) (features : List String) : ℚ :=
  scoreOdds s features / (1 + scoreOdds s features)

/-- One `feature_stats` counter bump of `_update_stats`
(`setdefault` to `(0, 0)` then increment the matching side). -/
def bumpStat (stats : List (String × ℚ × ℚ)) (name : String) (correct : Bool) :
    List (String × ℚ × ℚ) :=
  match stats with
  | [] => [(name, if correct then ((1 : ℚ), (0 : ℚ)) else (0, 1))]
  | (k, pn) :: rest =>
    if k = name then
      (k, if correct then (pn.1 + 1, pn.2) else (pn.1, pn.2 + 1)) :: rest
    else (k, pn) :: bumpStat rest name correct

/-- `LearningEngine._update_stats`. -/
def updateStats (s : LearningState) (features : List String) (correct : Bool) :
    LearningState :=
  { s with
    total_positive := if correct then s.total_positive + 1 else s.total_positive
    total_negative := if correct then s.total_negative else s.total_negative + 1
    feature_stats := features.foldl (fun st name => bumpStat st name correct) s.feature_stats }

/-- State transition of `LearningEngine.record_feedback` (the summary it
returns and the synchronous save are not part of the state change). -/
def recordFeedback (s : LearningState) (ratings : List (BOMItem × Bool))
    (ctx : Option String) : LearningState :=
  ratings.foldl (fun st r => updateStats st (itemFeatures r.1 ctx) r.2) s

/-- `summary()["total_feedback"]` (`int(round(total))`, `0` with no feedback). -/
def summaryTotalFeedback (s : LearningState) : ℤ :=
  if s.total_positive + s.total_negative ≤ 0 then 0
  else roundHalfEvenZ (s.total_positive + s.total_negative)

/-- `summary()["success_rate"]` (`0.0` with no feedback). -/
def summarySuccessRate (s : LearningState) : ℚ :=
  if s.total_positive + s.total_negative ≤ 0 then 0
  else s.total_positive / (s.total_positive + s.total_negative)

/-- `"mode"` entry of a metadata dictionary when it is a string
(`context` construction of `annotate_result` / `record_feedback`). -/
def metaModeOf (md : List (String × MetaVal)) : Option String :=
  match assocGet md "mode" with
  | some (MetaVal.s m) => some m
  | _ => none

/-- The tenths-formatted rendering of `f"{x:.1f}"` for the nonnegative
values at hand. -/
def fmtTenths (x : ℚ) : String :=
  let t := roundHalfEvenZ (x * 10)
  toString (t / 10) ++ "." ++ toString (t % 10)

/-- `f"{confidence * 100:.1f} %"`. -/
def confidenceEstimate (conf : ℚ) : String := fmtTenths (conf * 100) ++ " %"

/-- The per-item body of `annotate_result`: attach the rounded confidence,
backfill the `source` extra from the mode, and record the estimate string. -/
def annotateItem (s : LearningState) (ctx : Option String) (it : BOMItem) : BOMItem :=
  let features := itemFeatures it ctx
  let conf := scoreFromFeatures s features
  let extras1 :=
    match ctx with
    | some m =>
      if (m != "") && !(truthy (assocGet it.extras "source")) then
        assocSet it.extras "source" m
      else it.extras
    | none => it.extras
  let extras2 := assocSetdefault extras1 "confidence_estimate" (confidenceEstimate conf)
  { it with confidence := some (pyRound conf 4), extras := extras2 }

/-- `LearningEngine.annotate_result` (the summary of this engine is always a
non-empty dictionary, so the two learning metadata fields are always set). -/
def annotateResult (s : LearningState) (r : BOMExtractionResult) : BOMExtractionResult :=
  let ctx := metaModeOf r.metadata
  { items := r.items.map (annotateItem s ctx)
    detected_columns := r.detected_columns
    metadata :=
      assocSet
        (assocSet r.metadata "learning_feedback" (MetaVal.n (summaryTotalFeedback s)))
        "learning_success_rate" (MetaVal.q (pyRound (summarySuccessRate s * 100) 1)) }

/-! ## `QUANTITY_RE` and `_parse_quantity` -/

/-- The `unit` group's character class `[a-zA-Z%°\/]`. -/
def isUnitChar (c : Char) : Bool := isAsciiAlpha c || c = '%' || c = '°' || c = '/'

/-- One match of `QUANTITY_RE`
(`(?P<value>-?\d+(?:[\.,]\d+)?)\s*(?P<unit>[a-zA-Z%°\/]*)`),
in structured form: sign, integer digits, optional separator + fraction
digits, skipped whitespace, unit characters. -/
structure QMatch where
  neg : Bool
  intDigits : List Char
  frac : Option (Char × List Char)
  ws : List Char
  unit : List Char
  deriving DecidableEq

/-- The `value` group of the match. -/
def QMatch.valueChars (m : QMatch) : List Char :=
  (if m.neg then ['-'] else []) ++ m.intDigits ++
    (match m.frac with | some sf => sf.1 :: sf.2 | none => [])

/-- All characters consumed by the match (its span). -/
def QMatch.fullChars (m : QMatch) : List Char := m.valueChars ++ m.ws ++ m.unit

/-- Match the digit-led core of `QUANTITY_RE` at the head of `l` (greedy
digits, then the optional `[.,]\d+` group, `\s*`, and the `unit` class). -/
def matchQuantCore (neg : Bool) (l : List Char) : Option (QMatch × List Char) :=
  let sp := l.span isAsciiDigit
  if sp.1 = [] then none
  else
    let fr : Option (Char × List Char) × List Char :=
      match sp.2 with
      | c :: d :: r =>
        if (c = '.' || c = ',') && isAsciiDigit d then
          let spf := (d :: r).span isAsciiDigit
          (some (c, spf.1), spf.2)
        else (none, sp.2)
      | _ => (none, sp.2)
    let spw := fr.2.span isPyWs
    let spu := spw.2.span isUnitChar
    some ({ neg := neg, intDigits := sp.1, frac := fr.1, ws := spw.1, unit := spu.1 }, spu.2)

/-- Try to match `QUANTITY_RE` anchored at the head of the list. -/
def matchQuantAt (cs : List Char) : Option (QMatch × List Char) :=
  match cs with
  | '-' :: rest => matchQuantCore true rest
  | _ => matchQuantCore false cs

/-- `QUANTITY_RE.search`: leftmost match, returned with the text before and
after its span. -/
def qSearch : List Char → Option (List Char × QMatch × List Char)
  | [] => none
  | c :: cs =>
    match matchQuantAt (c :: cs) with
    | some (m, rest) => some ([], m, rest)
    | none =>
      match qSearch cs with
      | some (p, m, r) => some (c :: p, m, r)
      | none => none

/-- `.replace(",", ".")`. -/
def commaToDot (cs : List Char) : List Char :=
  cs.map (fun c => if c = ',' then '.' else c)

/-- Decimal value of a digit run. -/
def digitsToNat (ds : List Char) : ℕ := ds.foldl (fun a c => a * 10 + (c.toNat - 48)) 0

/-- Python's `float(str)` on the literal shapes reachable here: optional
sign, integer digits, optional `.` and fraction digits (at least one digit
overall; the exponent / infinity forms `float` also accepts can never reach
this call, since the argument is a `value` group match of `QUANTITY_RE`). -/
def pyFloat (cs0 : List Char) : Option ℚ :=
  let cs := stripList cs0
  let neg : Bool := cs.head? = some '-'
  let body := if cs.head? = some '-' ∨ cs.head? = some '+' then cs.drop 1 else cs
  let sp := body.span isAsciiDigit
  match sp.2 with
  | [] =>
    if sp.1 = [] then none
    else some ((if neg then -1 else 1) * (digitsToNat sp.1 : ℚ))
  | '.' :: r2 =>
    let spf := r2.span isAsciiDigit
    if spf.2 = [] && !(sp.1 = [] && spf.1 = []) then
      some ((if neg then -1 else 1) *
        ((digitsToNat sp.1 : ℚ) + (digitsToNat spf.1 : ℚ) / 10 ^ spf.1.length))
    else none
  | _ => none

/-- Well-formedness of a `QUANTITY_RE` match: nonempty digit runs, and a
separator from `[.,]`. -/
def QMatch.WF (m : QMatch) : Prop :=
  m.intDigits ≠ [] ∧ (∀ c ∈ m.intDigits, isAsciiDigit c = true) ∧
  (match m.frac with
   | some sf => (sf.1 = '.' ∨ sf.1 = ',') ∧ sf.2 ≠ [] ∧ ∀ c ∈ sf.2, isAsciiDigit c = true
   | none => True)

/-- The exact rational value of a match's `value` group (what `float` of
the comma-fixed literal denotes). -/
def QMatch.valueRat (m : QMatch) : ℚ :=
  (if m.neg then -1 else 1) *
    (digitsToNat (m.intDigits ++ (match m.frac with | some sf => sf.2 | none => [])) : ℚ) /
    10 ^ (match m.frac with | some sf => sf.2.length | none => 0)

/-- `int(numeric) if numeric.is_integer() else numeric`. -/
def pyNumOfRat (q : ℚ) : PyNum := if q.den = 1 then PyNum.int q.num else PyNum.float q

/-- `_parse_quantity`. -/
def parse_quantity (value : String) : Option PyNum × Option String :=
  if value = "" then (none, none)
  else
    match qSearch value.data with
    | none => (none, none)
    | some (_, m, _) =>
      let unitOpt : Option String := if m.unit = [] then none else some (String.mk m.unit)
      match pyFloat (commaToDot m.valueChars) with
      | none => (none, unitOpt)
      | some q =>
        (some (if q.den = 1 then PyNum.int q.num else PyNum.float q), unitOpt)

/-! ## Table extraction -/

abbrev RawTable := List (List (Option String))

/-- Whitespace-run collapsing: each maximal `\s+` run becomes one space
(the flag records whether the previous character was part of a run). -/
def collapseWsAux (prevWs : Bool) : List Char → List Char
  | [] => []
  | c :: rest =>
    if isPyWs c then
      if prevWs then collapseWsAux true rest else ' ' :: collapseWsAux true rest
    else c :: collapseWsAux false rest

/-- Whitespace-run collapsing of `_normalise_cell`
(`replace("\n", " ")` followed by `re.sub(r"\s+", " ", ·)`). -/
def collapseWs (cs : List Char) : List Char := collapseWsAux false cs

/-- `_normalise_cell`. -/
def normalise_cell (cell : Option String) : String :=
  match cell with
  | none => ""
  | some s => String.mk (stripList (collapseWs s.data))

/-- `_cell_has_content`. -/
def cell_has_content (cell : Option String) : Bool := normalise_cell cell ≠ ""

/-- `_clean_row`. -/
def clean_row (row : List (Option String)) : List String := row.map normalise_cell

/-- `_normalise_header`: lower-case, keep only `[a-z0-9]`. -/
def normalise_header (value : String) : String :=
  String.mk ((pyLower value).data.filter (fun c => ('a' ≤ c && c ≤ 'z') || isAsciiDigit c))

/-- `HEADER_ALIASES`, in source (insertion) order. -/
def HEADER_ALIASES : List (String × List String) :=
  [ ("position",
      ["position", "pos", "pos.", "item", "itemno", "item no", "item no.", "no", "nr",
       "index"]),
    ("part_number",
      ["part", "partno", "part no", "part-number", "article", "artikel", "artnr",
       "art.nr", "drawing", "drawing no", "zeichnungs", "zeichnungsnr", "zeichnung",
       "bestell", "order", "item code", "teilenummer"]),
    ("description",
      ["description", "descr", "desc", "bezeichnung", "benennung", "designation",
       "title", "titel", "beschreibung"]),
    ("quantity",
      ["qty", "qty.", "quantity", "menge", "anzahl", "stück", "stückzahl", "stk", "st",
       "pcs", "qty/qty"]),
    ("unit", ["unit", "einheit", "uom", "ein", "maßeinheit"]),
    ("material", ["material", "werkstoff", "mat"]),
    ("comment",
      ["comment", "comments", "bemerkung", "bemerkungen", "note", "notes", "remark",
       "remarks"]) ]

def match_header_aux (entries : List (String × List String)) (v : String) : Option String :=
  match entries with
  | [] => none
  | (canonical, aliases) :: rest =>
    if v ∈ aliases then some canonical else match_header_aux rest v

/-- `_match_header`. -/
def match_header (v : String) : Option String := match_header_aux HEADER_ALIASES v

/-- Accumulator of the per-row scan inside `_find_header_row`. -/
structure HeaderScan where
  mapping : List (ℕ × String) := []
  names : List (ℕ × String) := []
  score : ℕ := 0
  deriving DecidableEq

/-- The inner `for col_index, cell in enumerate(row)` loop of
`_find_header_row`. -/
def scan_header_row_aux (idx : ℕ) (cells : List String) (st : HeaderScan) : HeaderScan :=
  match cells with
  | [] => st
  | cell :: rest =>
    let st' :=
      if cell = "" then st
      else
        let normalised := normalise_header cell
        if normalised = "" then st
        else
          let names' := assocSet st.names idx normalised
          match match_header normalised with
          | some canon =>
            if canon ∈ st.mapping.map Prod.snd then { st with names := names' }
            else { mapping := assocSet st.mapping idx canon, names := names',
                   score := st.score + 1 }
          | none => { st with names := names' }
    scan_header_row_aux (idx + 1) rest st'

/-- Mapping, header names and score of one candidate row. -/
def scan_header_row (row : List String) : HeaderScan :=
  scan_header_row_aux 0 row {}

/-- The row loop of `_find_header_row`, tracking
`(best_index, best_map, best_header_names, best_score)`. -/
def find_header_row_aux (rows : List (List String)) (idx : ℕ)
    (best : Option ℕ × List (ℕ × String) × List (ℕ × String) × ℕ) :
    Option ℕ × List (ℕ × String) × List (ℕ × String) × ℕ :=
  match rows with
  | [] => best
  | row :: rest =>
    let sc := scan_header_row row
    let best' :=
      if 2 ≤ sc.score ∧ best.2.2.2 < sc.score then (some idx, sc.mapping, sc.names, sc.score)
      else best
    find_header_row_aux rest (idx + 1) best'

/-- `_find_header_row`. -/
def find_header_row (table : List (List String)) :
    Option ℕ × List (ℕ × String) × List (ℕ × String) :=
  let r := find_header_row_aux table 0 (none, [], [], 0)
  (r.1, r.2.1, r.2.2.1)

/-- Code-point lexicographic order on char lists (Python string `<`). -/
def charListLt : List Char → List Char → Bool
  | [], [] => false
  | [], _ :: _ => true
  | _ :: _, [] => false
  | a :: as, b :: bs =>
    if a.toNat < b.toNat then true
    else if b.toNat < a.toNat then false
    else charListLt as bs

def strLt (a b : String) : Bool := charListLt a.data b.data

def insertSorted {α : Type} (lt : α → α → Bool) (x : α) : List α → List α
  | [] => [x]
  | y :: ys => if lt x y then x :: y :: ys else y :: insertSorted lt x ys

/-- Insertion sort (all uses sort lists of pairwise-distinct keys, where any
correct sort agrees with Python's). -/
def sortBy {α : Type} (lt : α → α → Bool) : List α → List α
  | [] => []
  | x :: xs => insertSorted lt x (sortBy lt xs)

/-- First-occurrence deduplication (`set` membership filtering in order). -/
def dedupAux {α : Type} [DecidableEq α] (seen : List α) : List α → List α
  | [] => []
  | x :: xs => if x ∈ seen then dedupAux seen xs else x :: dedupAux (seen ++ [x]) xs

/-- Python `sorted(set(l))` for strings. -/
def sortedSetStrings (l : List String) : List String := sortBy strLt (dedupAux [] l)

/-- Python `sorted(set(l))` for naturals. -/
def sortedSetNats (l : List ℕ) : List ℕ :=
  sortBy (fun a b => decide (a < b)) (dedupAux [] l)

/-- The seven canonical fields (the `key not in {...}` set of `_row_to_item`). -/
def canonical7 : List String :=
  ["position", "part_number", "description", "quantity", "unit", "material", "comment"]

/-- The `for idx, cell in enumerate(row)` loop of `_row_to_item`, building
the `recognised` and `extras` dictionaries. -/
def row_cells_split (idx : ℕ) (cells : List String) (hmap hnames : List (ℕ × String))
    (recognised extras : List (String × String)) :
    List (String × String) × List (String × String) :=
  match cells with
  | [] => (recognised, extras)
  | cell :: rest =>
    if cell = "" then row_cells_split (idx + 1) rest hmap hnames recognised extras
    else
      match assocGet hmap idx with
      | some canon =>
        row_cells_split (idx + 1) rest hmap hnames (assocSet recognised canon cell) extras
      | none =>
        let hname :=
          match assocGet hnames idx with
          | some n => n
          | none => "column_" ++ Nat.repr idx
        row_cells_split (idx + 1) rest hmap hnames recognised (assocSet extras hname cell)

/-- `_row_to_item`. -/
def row_to_item (row : List String) (hmap hnames : List (ℕ × String)) : Option BOMItem :=
  let re := row_cells_split 0 row hmap hnames [] []
  let recognised := re.1
  if recognised = [] ∧ re.2 = [] then none
  else
    let qv : Option PyNum × Option String :=
      match assocGet recognised "quantity" with
      | some qcell => parse_quantity qcell
      | none => (none, none)
    let unit_value : Option String :=
      match assocGet recognised "unit" with
      | some u => if u ≠ "" then some u else qv.2
      | none => qv.2
    let extras2 :=
      recognised.foldl
        (fun e kv => if kv.1 ∈ canonical7 then e else assocSet e kv.1 kv.2) re.2
    let extras3 :=
      match assocGet recognised "quantity" with
      | some qcell =>
        if qv.1 = none then assocSetdefault extras2 "quantity_raw" qcell else extras2
      | none => extras2
    some { position := assocGet recognised "position"
           part_number := assocGet recognised "part_number"
           description := assocGet recognised "description"
           quantity := qv.1
           unit := unit_value
           material := assocGet recognised "material"
           comment := assocGet recognised "comment"
           extras := extras3 }

/-- `_process_table`. -/
def process_table (raw : RawTable) : List BOMItem × List String :=
  let cleaned := (raw.filter (fun row => row.any cell_has_content)).map clean_row
  if cleaned = [] then ([], [])
  else
    match find_header_row cleaned with
    | (none, _, _) => ([], [])
    | (some hidx, hmap, hnames) =>
      let data_rows := cleaned.drop (hidx + 1)
      if data_rows = [] then ([], [])
      else
        let items := data_rows.foldl
          (fun acc row =>
            match row_to_item row hmap hnames with
            | some it => acc ++ [it]
            | none => acc) []
        (items, sortedSetStrings (hmap.map Prod.snd))

/-! ## Document model and the per-page table scan -/

/-- A vector rectangle (pdfplumber `rects` entry fields used by the source). -/
structure Rct where
  x0 : ℚ := 0
  y0 : ℚ := 0
  x1 : ℚ := 0
  y1 : ℚ := 0
  w : ℚ := 0
  h : ℚ := 0
  deriving DecidableEq

/-- A page of the opaque document handle: table grids per detection
strategy, extracted text as lines, vector primitives, page size.
(`extract_text` output is represented by its `splitlines()`; curve point
records are represented by their coordinate pairs.) -/
structure PageModel where
  tablesByStrategy : List (List RawTable) := []
  textLines : List String := []
  rects : List Rct := []
  curves : List (List (ℚ × ℚ)) := []
  width : Option ℚ := none
  height : Option ℚ := none
  deriving DecidableEq

/-- `_iter_tables`: the strategies' grids in order, value-identical grids
yielded only on first sight. -/
def iter_tables (p : PageModel) : List RawTable := dedupAux [] p.tablesByStrategy.flatten

/-- Accumulator of the table loop of `_extract_from_pdf_document`. -/
structure TableScan where
  items : List BOMItem := []
  detected_columns : List String := []
  pages_used : List ℕ := []
  tables_seen : ℕ := 0
  deriving DecidableEq

/-- The `for table in _iter_tables(page)` body. -/
def scan_tables_page (pageIdx : ℕ) (st : TableScan) (p : PageModel) : TableScan :=
  (iter_tables p).foldl
    (fun st t =>
      let st1 := { st with tables_seen := st.tables_seen + 1 }
      let pr := process_table t
      if pr.1 ≠ [] then
        { st1 with
          items := st1.items ++ pr.1
          detected_columns :=
            pr.2.foldl (fun dc c => if c ∈ dc then dc else dc ++ [c]) st1.detected_columns
          pages_used := st1.pages_used ++ [pageIdx] }
      else st1)
    st

/-- The full page/table scan (`enumerate(pdf.pages, start=1)`). -/
def scan_all_tables (pages : List PageModel) : TableScan :=
  (pages.enumFrom 1).foldl (fun st pip => scan_tables_page pip.1 st pip.2) {}

/-- Python `source or "<unknown>"`. -/
def pyOrStr (o : Option String) (d : String) : String :=
  match o with
  | some s => if s = "" then d else s
  | none => d

/-- `_extract_from_pdf_document` of the strict variant
(`src/src/bom_extractor/extractor.py`): raises `BOMExtractionError` when no
table produced items. -/
def strict_extract (pages : List PageModel) (source : Option String) :
    Except String BOMExtractionResult :=
  let ts := scan_all_tables pages
  if ts.items = [] then
    Except.error
      ("Keine Stückliste in der PDF gefunden. Bitte stellen Sie sicher, dass die " ++
       "Zeichnung eine tabellarische Stückliste mit Spaltenüberschriften enthält.")
  else
    Except.ok
      { items := ts.items
        detected_columns := ts.detected_columns
        metadata :=
          [("source", MetaVal.s (pyOrStr source "<unknown>")),
           ("pages", MetaVal.ns (sortedSetNats ts.pages_used)),
           ("tables_checked", MetaVal.n ts.tables_seen)] }

/-! ## Free-text annotation interpretation -/

def containsAlpha (l : List Char) : Bool := l.any isAsciiAlpha

def startsWithList : List Char → List Char → Bool
  | [], _ => true
  | _ :: _, [] => false
  | a :: as, b :: bs => a = b && startsWithList as bs

def isInfixOf (needle : List Char) : List Char → Bool
  | [] => needle.isEmpty
  | c :: r => startsWithList needle (c :: r) || isInfixOf needle r

/-- Case-insensitive prefix strip (over `pyLowerChar`). -/
def stripPrefixCI : List Char → List Char → Option (List Char)
  | [], l => some l
  | _ :: _, [] => none
  | p :: ps, c :: cs =>
    if pyLowerChar c = pyLowerChar p then stripPrefixCI ps cs else none

/-- `ITEM_KEYWORDS`. -/
def ITEM_KEYWORDS : List String :=
  ["qty", "quantity", "anzahl", "menge", "stk", "stück", "st", "pcs", "pieces", "x",
   "off", "ea"]

/-- Python `\w` over this code's ASCII/German alphabet. -/
def isWordChar (c : Char) : Bool :=
  isAsciiAlpha c || isAsciiDigit c || c = '_' ||
    c ∈ ['ä', 'ö', 'ü', 'ß', 'Ä', 'Ö', 'Ü']

/-- The `(?:\s*[\.:)\-])?\s+(?P<rest>.+)$` tail of `CALLOUT_PATTERN`:
greedy optional separator first, falling back to the bare `\s+` split.  A
rest that the regex could only fill with whitespace is reported as `none`;
the caller discards the (whitespace) rest in exactly that case. -/
def calloutFinish (rem : List Char) : Option (List Char) :=
  let reqWsRest : List Char → Option (List Char) := fun l =>
    match l with
    | c :: r =>
      if isPyWs c then
        let rest := r.dropWhile isPyWs
        if rest = [] then none else some rest
      else none
    | [] => none
  let withSep : Option (List Char) :=
    match (rem.dropWhile isPyWs) with
    | c :: r =>
      if c = '.' || c = ':' || c = ')' || c = '-' then reqWsRest r else none
    | [] => none
  match withSep with
  | some rest => some rest
  | none => reqWsRest rem

/-- `(?P<position>\d{1,3}[A-Za-z]?)` followed by `calloutFinish` (a digit
run longer than three can never complete the pattern, matching the
backtracking behaviour). -/
def calloutPosRest (l : List Char) : Option (List Char × List Char) :=
  let sp := l.span isAsciiDigit
  if sp.1 = [] || 3 < sp.1.length then none
  else
    match sp.2 with
    | c :: r =>
      if isAsciiAlpha c then
        match calloutFinish r with
        | some rest => some (sp.1 ++ [c], rest)
        | none =>
          match calloutFinish sp.2 with
          | some rest => some (sp.1, rest)
          | none => none
      else
        match calloutFinish sp.2 with
        | some rest => some (sp.1, rest)
        | none => none
    | [] => none

/-- The label alternatives `pos(?:ition)?|item|nr|no\.?|#` in regex
preference order, each followed by `\s*` and the position tail. -/
def tryCalloutLabels (cands : List String) (l : List Char) :
    Option (List Char × List Char) :=
  match cands with
  | [] => none
  | p :: rest =>
    match stripPrefixCI p.data l with
    | some r =>
      match calloutPosRest (r.dropWhile isPyWs) with
      | some pr => some pr
      | none => tryCalloutLabels rest l
    | none => tryCalloutLabels rest l

/-- `CALLOUT_PATTERN.match` (position chars, rest chars). -/
def matchCallout (cs : List Char) : Option (List Char × List Char) :=
  let s0 := cs.dropWhile isPyWs
  let s1 :=
    match s0 with
    | c :: r => if c = '-' || c = '•' then r.dropWhile isPyWs else s0
    | [] => s0
  match tryCalloutLabels ["position", "pos", "item", "nr", "no.", "no", "#"] s1 with
  | some pr => some pr
  | none => calloutPosRest s1

/-- `ALT_CALLOUT_PATTERN.match`: `^([A-Za-z]\d{1,3})\s*[:\-]\s*(rest)$`. -/
def matchAltCallout (cs : List Char) : Option (List Char × List Char) :=
  match cs with
  | c :: r =>
    if isAsciiAlpha c then
      let sp := r.span isAsciiDigit
      if sp.1 = [] || 3 < sp.1.length then none
      else
        match sp.2.dropWhile isPyWs with
        | s :: r2 =>
          if s = ':' || s = '-' then
            let rest := r2.dropWhile isPyWs
            if rest = [] then none else some (c :: sp.1, rest)
          else none
        | [] => none
    else none
  | [] => none

/-- `SIMPLE_ENUM_PATTERN.match`: `^(\d{1,3})\s+(rest)$`. -/
def matchSimpleEnum (cs : List Char) : Option (List Char × List Char) :=
  let sp := cs.span isAsciiDigit
  if sp.1 = [] || 3 < sp.1.length then none
  else
    match sp.2 with
    | c :: r =>
      if isPyWs c then
        let rest := r.dropWhile isPyWs
        if rest = [] then none else some (sp.1, rest)
      else none
    | [] => none

/-- `_extract_position_and_rest`. -/
def extract_position_and_rest (text : List Char) :
    Option (List Char) × Option (List Char) :=
  let tryPat : Option (List Char × List Char) → Option (List Char × List Char) :=
    fun res =>
      match res with
      | some pr =>
        let rest' := stripList pr.2
        if rest' ≠ [] && containsAlpha rest' then some (pr.1, rest') else none
      | none => none
  match tryPat (matchCallout text) with
  | some pr => (some pr.1, some pr.2)
  | none =>
    match tryPat (matchAltCallout text) with
    | some pr => (some pr.1, some pr.2)
    | none =>
      match tryPat (matchSimpleEnum text) with
      | some pr => (some pr.1, some pr.2)
      | none =>
        if containsAlpha text then (none, some (stripList text)) else (none, none)

/-- A regex atom tried at every position with a preceding word boundary. -/
def scanWithBoundary (atom : List Char → Bool) : Bool → List Char → Bool
  | _, [] => false
  | prevW, c :: r =>
    (if !prevW then atom (c :: r) else false) || scanWithBoundary atom (isWordChar c) r

/-- Atom of `\b\d+\s*(?:x|pcs|stk|st|off|ea)\b`. -/
def numUnitAt (l : List Char) : Bool :=
  let sp := l.span isAsciiDigit
  sp.1 ≠ [] &&
    (let r := sp.2.dropWhile isPyWs
     ["x", "pcs", "stk", "st", "off", "ea"].any fun w =>
       startsWithList w.data r &&
         (match r.drop w.data.length with
          | [] => true
          | c :: _ => !isWordChar c))

/-- Atom of `\b[a-z]+\b`. -/
def lowerWordAt (l : List Char) : Bool :=
  let sp := l.span (fun c => 'a' ≤ c && c ≤ 'z')
  sp.1 ≠ [] && (match sp.2 with | [] => true | c :: _ => !isWordChar c)

def searchAnywhere (atom : List Char → Bool) : List Char → Bool
  | [] => false
  | c :: r => atom (c :: r) || searchAnywhere atom r

/-- Atom of `[A-Za-z]+-[A-Za-z0-9]+`. -/
def hyphenTokenAt (l : List Char) : Bool :=
  let sp := l.span isAsciiAlpha
  sp.1 ≠ [] &&
    (match sp.2 with
     | '-' :: r =>
       (match r with
        | c :: _ => isAsciiAlpha c || isAsciiDigit c
        | [] => false)
     | _ => false)

/-- `_line_looks_like_item`. -/
def line_looks_like_item (text : List Char) : Bool :=
  let lowered := text.map pyLowerChar
  (ITEM_KEYWORDS.any fun kw => isInfixOf kw.data lowered) ||
  scanWithBoundary numUnitAt false lowered ||
  (scanWithBoundary lowerWordAt false lowered && text.any isAsciiDigit) ||
  searchAnywhere hyphenTokenAt text

/-- `QUANTITY_RE.finditer` with match start offsets (the fuel bounds the
number of matches; every match consumes at least one character, so
`cs.length` steps suffice). -/
def qFindAllAux (fuel : ℕ) (cs : List Char) (offset : ℕ) : List (ℕ × QMatch) :=
  match fuel with
  | 0 => []
  | f + 1 =>
    match qSearch cs with
    | none => []
    | some (p, m, rest) =>
      (offset + p.length, m) ::
        qFindAllAux f rest (offset + p.length + m.fullChars.length)

def qFindAll (cs : List Char) : List (ℕ × QMatch) := qFindAllAux cs.length cs 0

/-- `text[a:b]`. -/
def sliceCl (l : List Char) (a b : ℕ) : List Char := (l.take b).drop a

/-- The `for match in reversed(matches)` selection loop of
`_extract_quantity_from_text` (argument already reversed). -/
def pickQuantLoop (text : List Char) : List (ℕ × QMatch) → Option (ℕ × QMatch)
  | [] => none
  | (s, m) :: rest =>
    let e := s + m.fullChars.length
    let pre := (sliceCl text (s - 6) s).map pyLowerChar
    let suf := (sliceCl text e (e + 6)).map pyLowerChar
    if (ITEM_KEYWORDS.any fun kw => isInfixOf kw.data pre) ||
       (ITEM_KEYWORDS.any fun kw => isInfixOf kw.data suf) then some (s, m)
    else if (decide (0 < s) && decide (sliceCl text (s - 1) s = ['('])) ||
            decide (sliceCl text e (e + 1) = [')']) then some (s, m)
    else pickQuantLoop text rest

/-- `re.sub(r"\s{2,}", " ", ·)`: only runs of two or more whitespace
characters collapse to a single space. -/
def collapseWsTwo (cs : List Char) : List Char :=
  match cs with
  | [] => []
  | [c] => [c]
  | c :: d :: rest =>
    if isPyWs c && isPyWs d then
      ' ' :: collapseWsTwo ((d :: rest).dropWhile isPyWs)
    else c :: collapseWsTwo (d :: rest)
termination_by cs.length
decreasing_by
  · exact Nat.lt_succ_of_le (List.dropWhile_sublist _ |>.length_le)
  · simp

/-- The keyword alternatives of the trailing `re.sub(r"\b(?:qty|...)\b", "", ·)`. -/
def KW_SUB_WORDS : List String :=
  ["qty", "quantity", "menge", "anzahl", "stk", "stück", "st", "pcs", "pieces", "ea",
   "off"]

/-- First keyword (in regex alternation order) matching case-insensitively
at the head with a word boundary after it; returns the matched length. -/
def matchKwAt (kws : List String) (l : List Char) : Option ℕ :=
  match kws with
  | [] => none
  | k :: rest =>
    if (stripPrefixCI k.data l).isSome &&
       (match l.drop k.data.length with
        | [] => true
        | c :: _ => !isWordChar c) then some k.data.length
    else matchKwAt rest l

/-- `re.sub(r"\b(?:qty|quantity|...)\b", "", ·, flags=IGNORECASE)`. -/
def kwSubAux (prevW : Bool) (l : List Char) : List Char :=
  match l with
  | [] => []
  | c :: r =>
    if !prevW then
      match matchKwAt KW_SUB_WORDS (c :: r) with
      | some n => kwSubAux true (r.drop (n - 1))
      | none => c :: kwSubAux (isWordChar c) r
    else c :: kwSubAux (isWordChar c) r
termination_by l.length
decreasing_by
  · simp only [List.length_cons, List.length_drop]
    omega
  · simp
  · simp

def kwSub (l : List Char) : List Char := kwSubAux false l

/-- `_extract_quantity_from_text`. -/
def extract_quantity_from_text (text : List Char) :
    Option PyNum × Option String × List Char :=
  if text = [] then (none, none, [])
  else
    let ms := qFindAll text
    let chosen : Option (ℕ × QMatch) :=
      match pickQuantLoop text ms.reverse with
      | some c => some c
      | none =>
        match ms with
        | [(s, m)] =>
          let e := s + m.fullChars.length
          if containsAlpha (text.take s) ||
             (["qty", "pcs", "stk", "x"].any fun kw =>
               isInfixOf kw.data ((text.drop e).map pyLowerChar)) then some (s, m)
          else none
        | _ => none
    match chosen with
    | none => (none, none, text)
    | some (s, m) =>
      let e := s + m.fullChars.length
      let qu := parse_quantity (String.mk m.fullChars)
      let uv : Option String :=
        match qu.2 with
        | some u => if pyLower u = "x" then some "pcs" else some u
        | none => none
      let before := text.take s
      let after := text.drop e
      let ba : List Char × List Char :=
        if before.getLast? = some '(' && after.head? = some ')' then
          (before.dropLast, after.drop 1)
        else (before, after)
      let cleaned := stripList (ba.1 ++ ' ' :: ba.2)
      let cleaned := kwSub cleaned
      let cleaned := stripCharsList [' ', '-', ':', ';', ','] (collapseWsTwo cleaned)
      (qu.1, uv, cleaned)

/-- `_extract_comment`: a trailing `\(([^)]+)\)\s*$` group becomes the
comment. -/
def extract_comment (text : List Char) : List Char × Option (List Char) :=
  if text = [] then ([], none)
  else
    match text.reverse.dropWhile isPyWs with
    | ')' :: rest =>
      let sp := rest.takeWhile (· ≠ ')')
      match sp.reverse.findIdx? (· = '(') with
      | some j =>
        let k := sp.length - 1 - j
        if 1 ≤ k then
          let comment := stripList (sp.take k).reverse
          let cleaned := stripList (rest.drop (k + 1)).reverse
          (cleaned, if comment = [] then none else some comment)
        else (stripList text, none)
      | none => (stripList text, none)
    | _ => (stripList text, none)

def pyIsAlphaChar (c : Char) : Bool :=
  isAsciiAlpha c || c ∈ ['ä', 'ö', 'ü', 'ß', 'Ä', 'Ö', 'Ü']

def isDigitStr (l : List Char) : Bool := l ≠ [] && l.all isAsciiDigit

def endsWithList (suf : List Char) (l : List Char) : Bool :=
  startsWithList suf.reverse l.reverse

/-- `_looks_like_part_number`. -/
def looks_like_part_number (token : List Char) : Bool :=
  let candidate := stripList token
  if candidate.length < 2 then false
  else
    let lowered := candidate.map pyLowerChar
    if ["mm", "cm", "m", "kg", "g", "nm"].any (fun suf =>
         endsWithList suf.data lowered &&
           isDigitStr (candidate.take (candidate.length - suf.length))) then false
    else if candidate.any isAsciiDigit && candidate.any pyIsAlphaChar then true
    else if candidate.any isAsciiDigit &&
            candidate.any (fun c => c = '-' || c = '_' || c = '/' || c = '.') then true
    else if isDigitStr (candidate.filter (· ≠ '-')) && '-' ∈ candidate &&
            4 ≤ candidate.length then true
    else if isDigitStr candidate && 4 ≤ candidate.length then true
    else false

/-- First-occurrence split `working.split(sep, 1)` (present check included). -/
def splitFirstAux (sep : List Char) : List Char → Option (List Char × List Char)
  | [] => none
  | c :: r =>
    if startsWithList sep (c :: r) then some ([], (c :: r).drop sep.length)
    else
      match splitFirstAux sep r with
      | some pr => some (c :: pr.1, pr.2)
      | none => none

/-- Whitespace tokenisation `str.split()`. -/
def splitWsAux (cur : List Char) : List Char → List (List Char)
  | [] => if cur = [] then [] else [cur.reverse]
  | c :: r =>
    if isPyWs c then
      (if cur = [] then splitWsAux [] r else cur.reverse :: splitWsAux [] r)
    else splitWsAux (c :: cur) r

def splitWs (l : List Char) : List (List Char) := splitWsAux [] l

def joinWithSpace : List (List Char) → List Char
  | [] => []
  | [t] => t
  | t :: rest => t ++ ' ' :: joinWithSpace rest

/-- The explicit-separator loop of `_extract_part_number_and_description`. -/
def sepSplitLoop (seps : List String) (working : List Char) :
    Option (List Char × List Char) :=
  match seps with
  | [] => none
  | sep :: rest =>
    match splitFirstAux sep.data working with
    | some lr =>
      let left := stripCharsList [' ', '-', ':', ';', ','] lr.1
      let right := stripCharsList [' ', '-', ':', ';', ','] lr.2
      if looks_like_part_number left && right ≠ [] then some (left, right)
      else if looks_like_part_number right && left ≠ [] then some (right, left)
      else sepSplitLoop rest working
    | none => sepSplitLoop rest working

/-- The token scan of `_extract_part_number_and_description`. -/
def findPartToken (idx : ℕ) : List (List Char) → Option (ℕ × List Char)
  | [] => none
  | t :: rest =>
    let cleaned := stripCharsList [',', ';', ':', '/', '(', ')', '[', ']'] t
    if looks_like_part_number cleaned then some (idx, cleaned)
    else findPartToken (idx + 1) rest

/-- `_extract_part_number_and_description`. -/
def extract_part_number_and_description (text : List Char) :
    Option (List Char) × List Char :=
  let working := stripCharsList [' ', '-', ':', ';', ','] text
  if working = [] then (none, [])
  else
    match sepSplitLoop [" - ", " – ", " — ", ":"] working with
    | some pr => (some pr.1, pr.2)
    | none =>
      let tokens := splitWs working
      let hit := findPartToken 0 tokens
      let descTokens :=
        match hit with
        | some im => (tokens.enum.filter (fun p => p.1 ≠ im.1)).map Prod.snd
        | none => tokens
      let description :=
        collapseWsTwo (stripCharsList [' ', '-', ':', ';', ','] (joinWithSpace descTokens))
      (hit.map Prod.snd, description)

/-- Intermediate record of `_interpret_annotation_line` after position,
quantity, comment and part-number extraction (before the discard check and
confidence bucketing). -/
structure AnnParts where
  position : Option String
  quantity : Option PyNum
  unit : Option String
  comment : Option String
  part_number : Option String
  description : String
  deriving DecidableEq

/-- The extraction pipeline prefix of `_interpret_annotation_line`. -/
def annotation_parts (line : String) : Option AnnParts :=
  let text0 := stripList line.data
  if text0 = [] then none
  else
    let text := stripCharsList ['-', '•', ' '] text0
    if text = [] then none
    else
      let pr := extract_position_and_rest text
      match pr.2 with
      | none => none
      | some rest =>
        if pr.1 = none && !(line_looks_like_item rest) then none
        else
          let qur := extract_quantity_from_text rest
          let rc := extract_comment qur.2.2
          let pd := extract_part_number_and_description rc.1
          some { position := pr.1.map (fun l => String.mk l)
                 quantity := qur.1
                 unit := qur.2.1
                 comment := rc.2.map (fun l => String.mk l)
                 part_number := pd.1.map (fun l => String.mk l)
                 description := String.mk pd.2 }

/-- The dictionary `_interpret_annotation_line` returns. -/
structure ParsedLine where
  position : Option String
  part_number : Option String
  description : Option String
  quantity : Option PyNum
  unit : Option String
  comment : Option String
  extras : List (String × String)
  deriving DecidableEq

/-- Populated-field score of `_interpret_annotation_line` over
{position, part_number, quantity, description}. -/
def annScore (p : AnnParts) : ℕ :=
  (if truthy p.position then 1 else 0) + (if truthy p.part_number then 1 else 0) +
  (if p.quantity.isSome then 1 else 0) + (if p.description ≠ "" then 1 else 0)

/-- Confidence bucket labels of `_interpret_annotation_line`. -/
def annBucket (score : ℕ) : String :=
  if 3 ≤ score then "hoch" else if 2 ≤ score then "mittel" else "niedrig"

/-- `_interpret_annotation_line`. -/
def interpret_annotation_line (line : String) : Option ParsedLine :=
  match annotation_parts line with
  | none => none
  | some p =>
    if p.description = "" && !(truthy p.part_number) then none
    else
      let extras :=
        assocSet [("source", "text"), ("raw", String.mk (stripList line.data))]
          "confidence" (annBucket (annScore p))
      some { position := p.position
             part_number := p.part_number
             description := if p.description ≠ "" then some p.description else p.part_number
             quantity := p.quantity
             unit := p.unit
             comment := p.comment
             extras := extras }

/-! ## The raw `CALLOUT_PATTERN` source and `re.VERBOSE` compilation

The matchers above embed the pattern in its intended reading, with `#` as a
literal label alternative.  The raw pattern text of the source however is
compiled with `re.VERBOSE`, under which an unescaped `#` outside a character
class starts a comment running to the end of the line; the definitions below
model exactly that preprocessing step and a parenthesis-balance check, to
state what `re.compile` does with the actual text. -/

/-- The raw string literal passed to `re.compile` for `CALLOUT_PATTERN`
(`extractor.py` lines 28–39), character for character. -/
def CALLOUT_PATTERN_SOURCE : String :=
  "\n    ^\\s*\n    (?:[-•\\u2022]\\s*)?\n    (?:(?P<label>(?:pos(?:ition)?|item|nr|no\\.?|#)\\s*)?(?P<position>\\d\x7b1,3\x7d[A-Za-z]?))\n    (?:\\s*[\\.:)\\-])?\n    \\s+\n    (?P<rest>.+)\n    $\n    "

/-- `re.VERBOSE` preprocessing: outside character classes, whitespace is
dropped and an unescaped `#` starts a comment to the end of the line;
escaped characters pass through.  (Fuel-bounded structural recursion; at
least one character is consumed per step, so `l.length` fuel always
suffices and the fuel-exhausted arm is never reached.) -/
def verboseCleanAux (inClass : Bool) (fuel : ℕ) (l : List Char) : List Char :=
  match fuel, l with
  | 0, rest => rest
  | _ + 1, [] => []
  | f + 1, '\\' :: c :: r => '\\' :: c :: verboseCleanAux inClass f r
  | _ + 1, ['\\'] => ['\\']
  | f + 1, c :: r =>
    if inClass then c :: verboseCleanAux (c ≠ ']') f r
    else if c = '[' then c :: verboseCleanAux true f r
    else if c = '#' then verboseCleanAux inClass f (r.dropWhile (· ≠ '\n'))
    else if isPyWs c then verboseCleanAux inClass f r
    else c :: verboseCleanAux inClass f r

def verboseClean (l : List Char) : List Char := verboseCleanAux false l.length l

/-- Group-parenthesis balance of a regex body (escapes and character
classes respected); `re.compile` rejects an unbalanced pattern with
`missing ), unterminated subpattern`. -/
def regexParensBalanced (depth : ℤ) (inClass : Bool) (l : List Char) : Bool :=
  match l with
  | [] => depth = 0
  | '\\' :: _ :: r => regexParensBalanced depth inClass r
  | ['\\'] => depth = 0
  | c :: r =>
    if inClass then regexParensBalanced depth (c ≠ ']') r
    else if c = '[' then regexParensBalanced depth true r
    else if c = '(' then regexParensBalanced (depth + 1) inClass r
    else if c = ')' then
      (if depth ≤ 0 then false else regexParensBalanced (depth - 1) inClass r)
    else regexParensBalanced depth inClass r

/-! ## Position allocation and the fallback pipelines -/

/-- The `while str(index) in used_positions: index += 1` loop (fuel-bounded;
`|used| + 1` steps always reach a free index, see `allocAux_free`). -/
def allocAux (fuel : ℕ) (used : List String) (idx : ℕ) : String × ℕ :=
  match fuel with
  | 0 => (Nat.repr idx, idx + 1)
  | f + 1 =>
    if Nat.repr idx ∈ used then allocAux f used (idx + 1)
    else (Nat.repr idx, idx + 1)

/-- `_allocate_position`: the position, the next start index, and the used
set with the position added. -/
def allocate_position (used : List String) (start : ℕ) : String × ℕ × List String :=
  let base := max start 1
  let pr := allocAux (used.length + 1) used base
  (pr.1, pr.2, used ++ [pr.1])

/-- `int(position)` for a digit string. -/
def strToNat (s : String) : ℕ := digitsToNat s.data

/-- Loop state of `_interpret_textual_annotations`. -/
structure TAState where
  items : List BOMItem := []
  used : List String := []
  next : ℕ := 1
  pagesHit : List ℕ := []
  linesChecked : ℕ := 0
  deriving DecidableEq

/-- Position / used-set / cursor resolution for one parsed line. -/
structure PosAlloc where
  pos : String
  next : ℕ
  used : List String
  extras : List (String × String)
  deriving DecidableEq

/-- The duplicate-position branch of the text loop. -/
def resolvePosition (st : TAState) (parsed : ParsedLine) : PosAlloc :=
  match parsed.position with
  | some pos0 =>
    if pos0 ∈ st.used then
      let extras1 := assocSetdefault parsed.extras "note"
        "Position mehrfach erkannt, automatisch neu nummeriert"
      let al := allocate_position st.used st.next
      { pos := al.1, next := al.2.1, used := al.2.2, extras := extras1 }
    else
      { pos := pos0
        next := if isDigitStr pos0.data then max st.next (strToNat pos0 + 1) else st.next
        used := st.used ++ [pos0]
        extras := parsed.extras }
  | none =>
    let al := allocate_position st.used st.next
    { pos := al.1, next := al.2.1, used := al.2.2, extras := parsed.extras }

/-- One raw line of the `for raw_line in raw_text.splitlines()` loop. -/
def process_text_line (pageIdx : ℕ) (st : TAState) (rawLine : String) : TAState :=
  let line := pyStrip rawLine
  if line = "" then st
  else
    let st1 := { st with linesChecked := st.linesChecked + 1 }
    match interpret_annotation_line line with
    | none => st1
    | some parsed =>
      let pa := resolvePosition st1 parsed
      let extras2 := assocSetdefault pa.extras "source" "text"
      let item : BOMItem :=
        { position := some pa.pos
          part_number := parsed.part_number
          description := parsed.description
          quantity := parsed.quantity
          unit := parsed.unit
          comment := parsed.comment
          extras := extras2.filter (fun kv => kv.2 ≠ "") }
      { st1 with
        items := st1.items ++ [item]
        used := pa.used
        next := pa.next
        pagesHit := if pageIdx ∈ st1.pagesHit then st1.pagesHit else st1.pagesHit ++ [pageIdx] }

/-- Result record of `_interpret_textual_annotations`. -/
structure TAResult where
  items : List BOMItem
  used : List String
  next : ℕ
  pages : List ℕ
  lines_checked : ℕ
  deriving DecidableEq

/-- `_interpret_textual_annotations`. -/
def interpret_textual_annotations (pages : List PageModel) (used0 : List String)
    (start : ℕ) : TAResult :=
  let fin := (pages.enumFrom 1).foldl
    (fun st pip => pip.2.textLines.foldl (process_text_line pip.1) st)
    { used := used0, next := max start 1 }
  { items := fin.items, used := fin.used, next := fin.next,
    pages := sortedSetNats fin.pagesHit, lines_checked := fin.linesChecked }

/-! ## Geometry clustering -/

def POINT_TO_MM : ℚ := 127/360

/-- `_round_mm`. -/
def round_mm (v : ℚ) : ℚ := pyRound (v * POINT_TO_MM) 1

/-- `_shape_dimension_key`. -/
def shape_dimension_key (w h : ℚ) : ℚ × ℚ := (round_mm (max w h), round_mm (min w h))

/-- Truthiness of an optional number (`None` and `0` are falsy). -/
def truthyQ (o : Option ℚ) : Bool :=
  match o with
  | none => false
  | some q => q ≠ 0

/-- Loop state of `_interpret_geometry_components`. -/
structure GeoState where
  shapes : List ((String × ℚ × ℚ) × ℕ × List ℕ) := []
  pagesHit : List ℕ := []
  considered : ℕ := 0
  deriving DecidableEq

/-- `shapes.setdefault(key, ...)` plus the count/pages bump. -/
def geoAdd (st : GeoState) (key : String × ℚ × ℚ) (pageIdx : ℕ) : GeoState :=
  let bucket :=
    match assocGet st.shapes key with
    | some b => b
    | none => (0, [])
  let b' := (bucket.1 + 1, if pageIdx ∈ bucket.2 then bucket.2 else bucket.2 ++ [pageIdx])
  { st with
    shapes := assocSet st.shapes key b'
    pagesHit := if pageIdx ∈ st.pagesHit then st.pagesHit else st.pagesHit ++ [pageIdx]
    considered := st.considered + 1 }

/-- The `for rect in page.rects` body. -/
def process_rect (pageIdx : ℕ) (pw ph : Option ℚ) (st : GeoState) (r : Rct) : GeoState :=
  if min r.w r.h < 10 then st
  else
    let borderSkip :=
      if truthyQ pw && truthyQ ph then
        decide (pw.getD 0 * (9/10) ≤ r.w) || decide (ph.getD 0 * (9/10) ≤ r.h) ||
        decide (r.x0 ≤ 2) || decide (r.y0 ≤ 2) ||
        decide (pw.getD 0 - 2 ≤ r.x1) || decide (ph.getD 0 - 2 ≤ r.y1)
      else false
    if borderSkip then st
    else
      let key := shape_dimension_key r.w r.h
      geoAdd st ("rectangle", key.1, key.2) pageIdx

def maxQ (l : List ℚ) : ℚ := l.foldl max (l.headD 0)
def minQ (l : List ℚ) : ℚ := l.foldl min (l.headD 0)

/-- The `for curve in page.curves` body (points given as coordinate pairs). -/
def process_curve (pageIdx : ℕ) (pw ph : Option ℚ) (st : GeoState)
    (coords : List (ℚ × ℚ)) : GeoState :=
  if coords.length < 2 then st
  else
    let xs := coords.map Prod.fst
    let ys := coords.map Prod.snd
    let width := maxQ xs - minQ xs
    let height := maxQ ys - minQ ys
    if max width height < 10 then st
    else
      let skip :=
        if truthyQ pw && truthyQ ph then
          decide (pw.getD 0 * (9/10) ≤ width) || decide (ph.getD 0 * (9/10) ≤ height)
        else false
      if skip then st
      else
        let shapeType := if |width - height| ≤ 5 then "circle" else "curve"
        let key := shape_dimension_key width height
        geoAdd st (shapeType, key.1, key.2) pageIdx

/-- `SHAPE_LABELS.get(t, default)`. -/
def shapeLabel (t : String) (dflt : String) : String :=
  if t = "rectangle" then "Rechteck"
  else if t = "curve" then "Kontur"
  else if t = "circle" then "Kreis"
  else dflt

def capitalizeStr (s : String) : String :=
  match s.data with
  | [] => ""
  | c :: r =>
    String.mk ((if 'a' ≤ c && c ≤ 'z' then Char.ofNat (c.toNat - 32) else c) :: r.map pyLowerChar)

/-- `_format_shape_description`. -/
def format_shape_description (t : String) (major minor : ℚ) : String :=
  let label := shapeLabel t (capitalizeStr t)
  if t = "circle" || decide (|major - minor| ≤ 1/5) then
    label ++ " Ø " ++ fmtTenths major ++ " mm"
  else
    label ++ " " ++ fmtTenths major ++ " × " ++ fmtTenths minor ++ " mm"

/-- Python tuple comparison on `(shape_type, major, minor)` keys. -/
def shapeKeyLt (a b : String × ℚ × ℚ) : Bool :=
  if strLt a.1 b.1 then true
  else if strLt b.1 a.1 then false
  else if a.2.1 < b.2.1 then true
  else if b.2.1 < a.2.1 then false
  else decide (a.2.2 < b.2.2)

def natJoinComma : List ℕ → String
  | [] => ""
  | [n] => Nat.repr n
  | n :: rest => Nat.repr n ++ "," ++ natJoinComma rest

/-- Result record of `_interpret_geometry_components`. -/
structure GeoResult where
  items : List BOMItem
  used : List String
  next : ℕ
  pages : List ℕ
  shapes_considered : ℕ
  deriving DecidableEq

/-- `_interpret_geometry_components`. -/
def interpret_geometry_components (pages : List PageModel) (used0 : List String)
    (start : ℕ) : GeoResult :=
  let gst := (pages.enumFrom 1).foldl
    (fun st pip =>
      let st1 := pip.2.rects.foldl (process_rect pip.1 pip.2.width pip.2.height) st
      pip.2.curves.foldl (process_curve pip.1 pip.2.width pip.2.height) st1)
    {}
  let sortedKeys := sortBy shapeKeyLt (gst.shapes.map Prod.fst)
  let fin := sortedKeys.foldl
    (fun (acc : List BOMItem × List String × ℕ) key =>
      match assocGet gst.shapes key with
      | some bucket =>
        let al := allocate_position acc.2.1 acc.2.2
        let item : BOMItem :=
          { position := some al.1
            description := some (format_shape_description key.1 key.2.1 key.2.2)
            quantity := some (PyNum.int bucket.1)
            unit := some "pcs"
            extras := [("source", "geometry"),
                       ("shape", shapeLabel key.1 key.1),
                       ("pages", natJoinComma (sortedSetNats bucket.2))] }
        (acc.1 ++ [item], al.2.2, al.2.1)
      | none => acc)
    ([], used0, max start 1)
  { items := fin.1, used := fin.2.1, next := fin.2.2,
    pages := sortedSetNats gst.pagesHit, shapes_considered := gst.considered }

/-! ## The fallback orchestrator -/

/-- Canonical fields populated on one item (`_infer_detected_columns` body). -/
def item_fields_present (it : BOMItem) : List String :=
  (if truthy it.position then ["position"] else []) ++
  (if truthy it.part_number then ["part_number"] else []) ++
  (if truthy it.description then ["description"] else []) ++
  (if it.quantity.isSome then ["quantity"] else []) ++
  (if truthy it.unit then ["unit"] else []) ++
  (if truthy it.material then ["material"] else []) ++
  (if truthy it.comment then ["comment"] else [])

/-- `_infer_detected_columns`. -/
def infer_detected_columns (items : List BOMItem) : List String :=
  sortBy strLt (dedupAux [] (items.foldl (fun acc it => acc ++ item_fields_present it) []))

/-- The placeholder `BOMItem` synthesised when both fallbacks are empty. -/
def placeholderItem (pos : String) : BOMItem :=
  { position := some pos
    description := some "Automatisch generierte Sammelposition"
    quantity := some (PyNum.int 1)
    unit := some "assembly"
    comment := some "Keine interpretierbaren Komponenten gefunden – bitte Zeichnung prüfen."
    extras := [("source", "fallback"), ("confidence", "sehr gering")] }

/-- `_interpret_without_table`. -/
def interpret_without_table (pages : List PageModel) :
    List BOMItem × List String × List (String × MetaVal) :=
  let t := interpret_textual_annotations pages [] 1
  let g := interpret_geometry_components pages t.used t.next
  let items0 := t.items ++ g.items
  let md0 : List (String × MetaVal) :=
    [("mode", MetaVal.s "interpreted"),
     ("annotation_items", MetaVal.n t.items.length),
     ("geometry_items", MetaVal.n g.items.length),
     ("lines_checked", MetaVal.n t.lines_checked),
     ("shapes_considered", MetaVal.n g.shapes_considered)]
  let pagesAll := sortedSetNats (t.pages ++ g.pages)
  let md1 := if pagesAll ≠ [] then md0 ++ [("pages", MetaVal.ns pagesAll)] else md0
  if items0 = [] then
    let pos :=
      if "1" ∈ g.used then (allocate_position g.used g.next).1
      else "1"
    let items := [placeholderItem pos]
    (items, infer_detected_columns items, md1 ++ [("fallback_placeholder", MetaVal.n 1)])
  else
    (items0, infer_detected_columns items0, md1)

/-- `_extract_from_pdf_document` of the fallback-enabled orchestrator
(`src/bom_extractor/extractor.py`). -/
def extract_from_pdf_document (pages : List PageModel) (source : Option String) :
    BOMExtractionResult :=
  let ts := scan_all_tables pages
  if ts.items = [] then
    let fb := interpret_without_table pages
    let md0 : List (String × MetaVal) :=
      [("source", MetaVal.s (pyOrStr source "<unknown>")),
       ("tables_checked", MetaVal.n ts.tables_seen)]
    let md1 := fb.2.2.foldl (fun m kv => assocSet m kv.1 kv.2) md0
    let md2 := assocSetdefault md1 "pages" (MetaVal.ns [])
    { items := fb.1, detected_columns := fb.2.1, metadata := md2 }
  else
    { items := ts.items
      detected_columns := sortedSetStrings ts.detected_columns
      metadata :=
        [("source", MetaVal.s (pyOrStr source "<unknown>")),
         ("pages", MetaVal.ns (sortedSetNats ts.pages_used)),
         ("tables_checked", MetaVal.n ts.tables_seen),
         ("mode", MetaVal.s "table")] }

/-! ## Accessors and invariants for the learner state -/

/-- The `positive` counter of a feature (0 when unseen). -/
def statPosQ (stats : List (String × ℚ × ℚ)) (name : String) : ℚ :=
  match assocGet stats name with
  | some pn => pn.1
  | none => 0

/-- The `negative` counter of a feature (0 when unseen). -/
def statNegQ (stats : List (String × ℚ × ℚ)) (name : String) : ℚ :=
  match assocGet stats name with
  | some pn => pn.2
  | none => 0

/-- All per-feature counters are nonnegative. -/
def StatsNonneg (stats : List (String × ℚ × ℚ)) : Prop :=
  ∀ e ∈ stats, 0 ≤ e.2.1 ∧ 0 ≤ e.2.2

instance (stats : List (String × ℚ × ℚ)) : Decidable (StatsNonneg stats) :=
  List.decidableBAll _ stats

/-- All counters of a learner state are nonnegative (true of every state
the engine can reach: counters start at 0 and only ever grow by 1). -/
def LearningState.Nonneg (s : LearningState) : Prop :=
  0 ≤ s.total_positive ∧ 0 ≤ s.total_negative ∧ StatsNonneg s.feature_stats

instance (s : LearningState) : Decidable s.Nonneg := by
  unfold LearningState.Nonneg
  infer_instance

/-! # Theorems

Helper lemmas first, then one theorem (plus witness / counterexample where
required) per claim. -/

section DictLemmas

variable {κ α : Type} [DecidableEq κ]

theorem assocGet_assocSet_self (d : List (κ × α)) (k : κ) (v : α) :
    assocGet (assocSet d k v) k = some v := by
  induction d with
  | nil => simp [assocSet, assocGet]
  | cons e rest ih =>
    by_cases h : e.1 = k
    · simp [assocSet, assocGet, h]
    · simp [assocSet, assocGet, h, ih]

theorem assocGet_assocSet_other (d : List (κ × α)) (k k' : κ) (v : α) (h : k ≠ k') :
    assocGet (assocSet d k v) k' = assocGet d k' := by
  induction d with
  | nil => simp [assocSet, assocGet, h]
  | cons e rest ih =>
    by_cases he : e.1 = k
    · simp [assocSet, assocGet, he, h]
    · simp [assocSet, assocGet, he, ih]

theorem assocGet_append (d d' : List (κ × α)) (k : κ) :
    assocGet (d ++ d') k =
      (match assocGet d k with
       | some v => some v
       | none => assocGet d' k) := by
  induction d with
  | nil => simp [assocGet]
  | cons e rest ih =>
    by_cases he : e.1 = k
    · simp [assocGet, he]
    · simp [assocGet, he, ih]

theorem assocGet_assocSetdefault_other (d : List (κ × α)) (k k' : κ) (v : α)
    (h : k ≠ k') : assocGet (assocSetdefault d k v) k' = assocGet d k' := by
  unfold assocSetdefault
  cases hg : assocGet d k with
  | some w => rfl
  | none =>
    rw [assocGet_append]
    cases hg' : assocGet d k' with
    | some w => rfl
    | none => simp [assocGet, h]

theorem assocGet_assocSetdefault_isSome (d : List (κ × α)) (k : κ) (v : α) :
    (assocGet (assocSetdefault d k v) k).isSome := by
  unfold assocSetdefault
  cases hg : assocGet d k with
  | some w => simp [hg]
  | none => rw [assocGet_append, hg]; simp [assocGet]

theorem assocSetdefault_of_isSome (d : List (κ × α)) (k : κ) (v : α)
    (h : (assocGet d k).isSome) : assocSetdefault d k v = d := by
  unfold assocSetdefault
  cases hg : assocGet d k with
  | some w => rfl
  | none => rw [hg] at h; simp at h

theorem assocSet_assocSet_same (d : List (κ × α)) (k : κ) (v w : α) :
    assocSet (assocSet d k v) k w = assocSet d k w := by
  induction d with
  | nil => simp [assocSet]
  | cons e rest ih =>
    by_cases he : e.1 = k
    · simp [assocSet, he]
    · simp [assocSet, he, ih]

theorem assocSet_idem_of_get (d : List (κ × α)) (k : κ) (v : α)
    (h : assocGet d k = some v) : assocSet d k v = d := by
  induction d with
  | nil => simp [assocGet] at h
  | cons e rest ih =>
    by_cases he : e.1 = k
    · simp [assocGet, he] at h
      have : e = (k, v) := by
        cases e
        simp_all
      simp [assocSet, he, this]
    · simp [assocGet, he] at h
      simp [assocSet, he, ih h]

end DictLemmas

/-! ## Lemmas about `annotate_result` (claim C1) -/

/-- The three extras keys and the seven item fields that `_item_features`
reads are preserved by `annotateItem`, so the feature set is determined by
them. -/
theorem itemFeatures_congr (it it' : BOMItem) (ctx : Option String)
    (h1 : assocGet it.extras "source" = assocGet it'.extras "source")
    (h2 : assocGet it.extras "confidence" = assocGet it'.extras "confidence")
    (h3 : assocGet it.extras "component_code" = assocGet it'.extras "component_code")
    (h4 : it.position = it'.position) (h5 : it.part_number = it'.part_number)
    (h6 : it.description = it'.description) (h7 : it.quantity = it'.quantity)
    (h8 : it.unit = it'.unit) (h9 : it.material = it'.material)
    (h10 : it.comment = it'.comment) :
    itemFeatures it ctx = itemFeatures it' ctx := by
  unfold itemFeatures fieldCount
  rw [h1, h2, h3, h4, h5, h6, h7, h8, h9, h10]

theorem annotateItem_extras_get (s : LearningState) (ctx : Option String)
    (it : BOMItem) (k : String) (hk : "source" ≠ k) (hk2 : "confidence_estimate" ≠ k) :
    assocGet (annotateItem s ctx it).extras k = assocGet it.extras k := by
  unfold annotateItem
  cases ctx with
  | none =>
    simp only
    rw [assocGet_assocSetdefault_other _ _ _ _ hk2]
  | some m =>
    simp only
    by_cases hc : ((m != "") && !(truthy (assocGet it.extras "source"))) = true
    · rw [if_pos hc, assocGet_assocSetdefault_other _ _ _ _ hk2,
        assocGet_assocSet_other _ _ _ _ hk]
    · rw [if_neg hc, assocGet_assocSetdefault_other _ _ _ _ hk2]

theorem annotateItem_source_get (s : LearningState) (ctx : Option String)
    (it : BOMItem) (hstable : truthy ctx = true → truthy (assocGet it.extras "source")) :
    assocGet (annotateItem s ctx it).extras "source" = assocGet it.extras "source" := by
  unfold annotateItem
  cases ctx with
  | none =>
    simp only
    rw [assocGet_assocSetdefault_other _ _ _ _ (by decide)]
  | some m =>
    simp only
    have hc : ¬ (((m != "") && !(truthy (assocGet it.extras "source"))) = true) := by
      by_cases hm : m = ""
      · simp [hm]
      · have := hstable (by simp [truthy, hm])
        simp [this]
    rw [if_neg hc, assocGet_assocSetdefault_other _ _ _ _ (by decide)]

/-- After one `annotateItem` in a truthy-mode context, the `source` extra is
truthy. -/
theorem annotateItem_source_truthy (s : LearningState) (m : String) (hm : m ≠ "")
    (it : BOMItem) :
    truthy (assocGet (annotateItem s (some m) it).extras "source") = true := by
  unfold annotateItem
  simp only
  by_cases ht : truthy (assocGet it.extras "source") = true
  · have hc : ¬ (((m != "") && !(truthy (assocGet it.extras "source"))) = true) := by
      simp [ht]
    rw [if_neg hc, assocGet_assocSetdefault_other _ _ _ _ (by decide)]
    exact ht
  · have hc : ((m != "") && !(truthy (assocGet it.extras "source"))) = true := by
      simp only [Bool.and_eq_true, bne_iff_ne, ne_eq, Bool.not_eq_true']
      exact ⟨hm, Bool.not_eq_true _ |>.mp ht⟩
    rw [if_pos hc, assocGet_assocSetdefault_other _ _ _ _ (by decide),
      assocGet_assocSet_self]
    simp [truthy, hm]

theorem bomItem_eq_of_parts (a b : BOMItem) (h1 : a.position = b.position)
    (h2 : a.part_number = b.part_number) (h3 : a.description = b.description)
    (h4 : a.quantity = b.quantity) (h5 : a.unit = b.unit) (h6 : a.material = b.material)
    (h7 : a.comment = b.comment) (h8 : a.extras = b.extras)
    (h9 : a.confidence = b.confidence) : a = b := by
  cases a; cases b; simp_all

theorem annotateItem_confidence (s : LearningState) (ctx : Option String) (it : BOMItem) :
    (annotateItem s ctx it).confidence =
      some (pyRound (scoreFromFeatures s (itemFeatures it ctx)) 4) := rfl

theorem annotateItem_ce_isSome (s : LearningState) (ctx : Option String) (it : BOMItem) :
    (assocGet (annotateItem s ctx it).extras "confidence_estimate").isSome := by
  unfold annotateItem
  cases ctx with
  | none => exact assocGet_assocSetdefault_isSome _ _ _
  | some m =>
    simp only
    by_cases hc : ((m != "") && !(truthy (assocGet it.extras "source"))) = true
    · rw [if_pos hc]; exact assocGet_assocSetdefault_isSome _ _ _
    · rw [if_neg hc]; exact assocGet_assocSetdefault_isSome _ _ _

theorem annotateItem_extras_stable (s : LearningState) (ctx : Option String)
    (it : BOMItem)
    (hsrc : truthy ctx = true → truthy (assocGet it.extras "source") = true)
    (hce : (assocGet it.extras "confidence_estimate").isSome) :
    (annotateItem s ctx it).extras = it.extras := by
  unfold annotateItem
  cases ctx with
  | none =>
    simp only
    exact assocSetdefault_of_isSome _ _ _ hce
  | some m =>
    simp only
    have hc : ¬ (((m != "") && !(truthy (assocGet it.extras "source"))) = true) := by
      by_cases hm : m = ""
      · simp [hm]
      · have := hsrc (by simp [truthy, hm])
        simp [this]
    rw [if_neg hc]
    exact assocSetdefault_of_isSome _ _ _ hce

/-- Applying `annotateItem` to its own output is the identity on the output
whenever the item's `source` extra is already truthy in a truthy context
(which the first application guarantees). -/
theorem annotateItem_stable (s : LearningState) (ctx : Option String) (it : BOMItem)
    (hsrc : truthy ctx = true → truthy (assocGet it.extras "source") = true) :
    annotateItem s ctx (annotateItem s ctx it) = annotateItem s ctx it := by
  have hfeat : itemFeatures (annotateItem s ctx it) ctx = itemFeatures it ctx :=
    itemFeatures_congr _ _ _ (annotateItem_source_get s ctx it hsrc)
      (annotateItem_extras_get s ctx it _ (by decide) (by decide))
      (annotateItem_extras_get s ctx it _ (by decide) (by decide))
      rfl rfl rfl rfl rfl rfl rfl
  have hsrc' : truthy ctx = true →
      truthy (assocGet (annotateItem s ctx it).extras "source") = true := by
    intro hctx
    rw [annotateItem_source_get s ctx it hsrc]
    exact hsrc hctx
  refine bomItem_eq_of_parts _ _ rfl rfl rfl rfl rfl rfl rfl ?_ ?_
  · exact annotateItem_extras_stable s ctx _ hsrc' (annotateItem_ce_isSome s ctx it)
  · rw [annotateItem_confidence, annotateItem_confidence, hfeat]

theorem metaModeOf_annotate (s : LearningState) (r : BOMExtractionResult) :
    metaModeOf (annotateResult s r).metadata = metaModeOf r.metadata := by
  unfold annotateResult metaModeOf
  simp only
  rw [assocGet_assocSet_other _ _ _ _ (by decide),
    assocGet_assocSet_other _ _ _ _ (by decide)]

theorem annotateResult_metadata_stable (s : LearningState) (r : BOMExtractionResult) :
    (annotateResult s (annotateResult s r)).metadata = (annotateResult s r).metadata := by
  unfold annotateResult
  simp only
  rw [assocSet_idem_of_get _ _ _
      (by rw [assocGet_assocSet_other _ _ _ _ (by decide), assocGet_assocSet_self]),
    assocSet_idem_of_get _ _ _
      (by rw [assocGet_assocSet_other _ _ _ _ (by decide), assocGet_assocSet_self])]

theorem bomResult_eq_of_parts (a b : BOMExtractionResult)
    (h1 : a.items = b.items) (h2 : a.detected_columns = b.detected_columns)
    (h3 : a.metadata = b.metadata) : a = b := by
  cases a; cases b; simp_all

theorem annotateResult_items_eq (s : LearningState) (X : BOMExtractionResult) :
    (annotateResult s X).items = X.items.map (annotateItem s (metaModeOf X.metadata)) := rfl

theorem annotateResult_detected_eq (s : LearningState) (X : BOMExtractionResult) :
    (annotateResult s X).detected_columns = X.detected_columns := rfl

unseal Rat.add Rat.mul Rat.sub Rat.inv in
/-- C1 counterexample: on a table-mode result whose item carries no
`source` extra, the first `annotate_result` call backfills
`extras["source"] = "table"`, which enters the feature set, so the second
call assigns a different confidence (0.9701 first, 0.9949 second): the
claimed idempotence fails. -/
theorem c1_annotate_not_idempotent_counterexample :
    ((annotateResult { } (annotateResult { }
        { items := [{ position := some "1", description := some "Washer",
                      quantity := some (PyNum.int 5) }],
          detected_columns := ["description", "position", "quantity"],
          metadata := [("mode", MetaVal.s "table")] })).items.map BOMItem.confidence) ≠
    ((annotateResult { }
        { items := [{ position := some "1", description := some "Washer",
                      quantity := some (PyNum.int 5) }],
          detected_columns := ["description", "position", "quantity"],
          metadata := [("mode", MetaVal.s "table")] }).items.map BOMItem.confidence) := by
  decide

/-- C1 (amended): `annotate_result` is idempotent from the second call on —
the third call assigns exactly the result of the second call (for every
learner state and every extraction result).  The first call can still shift
confidences once, by backfilling the `source` extra from the mode tag (see
the counterexample). -/
theorem c1_annotate_idempotent_from_second_call (s : LearningState)
    (r : BOMExtractionResult) :
    annotateResult s (annotateResult s (annotateResult s r)) =
      annotateResult s (annotateResult s r) := by
  apply bomResult_eq_of_parts
  · simp only [annotateResult_items_eq, metaModeOf_annotate, List.map_map]
    apply List.map_congr_left
    intro it _
    simp only [Function.comp_apply]
    apply annotateItem_stable
    intro hctx
    cases hm : metaModeOf r.metadata with
    | none => rw [hm] at hctx; simp [truthy] at hctx
    | some m =>
      rw [hm] at hctx
      have hm' : m ≠ "" := by
        by_contra he
        rw [he] at hctx
        simp [truthy] at hctx
      exact annotateItem_source_truthy s m hm' it
  · simp only [annotateResult_detected_eq]
  · exact annotateResult_metadata_stable s (annotateResult s r)

/-! ## Lemmas for feedback monotonicity (claim C7) -/

theorem assocGet_mem {κ α : Type} [DecidableEq κ] (d : List (κ × α)) (k : κ) (v : α)
    (h : assocGet d k = some v) : (k, v) ∈ d := by
  induction d with
  | nil => simp [assocGet] at h
  | cons e rest ih =>
    by_cases he : e.1 = k
    · have hv : e.2 = v := by simpa [assocGet, he] using h
      have he2 : e = (k, v) := by cases e; simp_all
      rw [he2]
      exact List.mem_cons_self _ _
    · exact List.mem_cons_of_mem _ (ih (by simpa [assocGet, he] using h))

theorem statPosQ_nonneg (stats : List (String × ℚ × ℚ)) (name : String)
    (h : StatsNonneg stats) : 0 ≤ statPosQ stats name := by
  unfold statPosQ
  cases hg : assocGet stats name with
  | none => simp
  | some pn => exact (h _ (assocGet_mem _ _ _ hg)).1

theorem statNegQ_nonneg (stats : List (String × ℚ × ℚ)) (name : String)
    (h : StatsNonneg stats) : 0 ≤ statNegQ stats name := by
  unfold statNegQ
  cases hg : assocGet stats name with
  | none => simp
  | some pn => exact (h _ (assocGet_mem _ _ _ hg)).2

theorem assocGet_bumpStat_true (st : List (String × ℚ × ℚ)) (n m : String) :
    assocGet (bumpStat st n true) m =
      if n = m then some (statPosQ st n + 1, statNegQ st n) else assocGet st m := by
  induction st with
  | nil => by_cases h : n = m <;> simp [bumpStat, assocGet, statPosQ, statNegQ, h]
  | cons e rest ih =>
    by_cases hk : e.1 = n
    · by_cases hm : n = m
      · simp [bumpStat, assocGet, statPosQ, statNegQ, hk, hm, hk.trans hm]
      · have hk2 : ¬ (e.1 = m) := fun hh => hm (hk.symm.trans hh)
        simp [bumpStat, assocGet, statPosQ, statNegQ, hk, hm, hk2]
    · by_cases hkm : e.1 = m
      · have hnm : ¬ (n = m) := fun hh => hk (by rw [hkm, hh])
        have hmn : ¬ (m = n) := fun hh => hnm hh.symm
        simp [bumpStat, assocGet, hk, hkm, hnm, hmn]
      · simp [bumpStat, assocGet, statPosQ, statNegQ, hk, hkm, ih]

theorem statPosQ_bumpStat_true (st : List (String × ℚ × ℚ)) (n m : String) :
    statPosQ (bumpStat st n true) m =
      statPosQ st m + (if n = m then 1 else 0) := by
  by_cases h : n = m
  · subst h
    simp [statPosQ, assocGet_bumpStat_true]
  · simp [statPosQ, assocGet_bumpStat_true, h]

theorem statNegQ_bumpStat_true (st : List (String × ℚ × ℚ)) (n m : String) :
    statNegQ (bumpStat st n true) m = statNegQ st m := by
  by_cases h : n = m
  · subst h
    simp [statNegQ, assocGet_bumpStat_true]
  · simp [statNegQ, assocGet_bumpStat_true, h]

theorem foldl_bumpStat_true_effect (F : List String) (st : List (String × ℚ × ℚ))
    (m : String) :
    statPosQ st m ≤ statPosQ (F.foldl (fun s x => bumpStat s x true) st) m ∧
    statNegQ (F.foldl (fun s x => bumpStat s x true) st) m = statNegQ st m := by
  induction F generalizing st with
  | nil => exact ⟨le_refl _, rfl⟩
  | cons n F ih =>
    simp only [List.foldl_cons]
    refine ⟨le_trans ?_ (ih (bumpStat st n true)).1, (ih _).2.trans ?_⟩
    · rw [statPosQ_bumpStat_true]
      by_cases h : n = m <;> simp [h]
    · exact statNegQ_bumpStat_true st n m

unseal Rat.add Rat.mul Rat.sub Rat.inv in
theorem featurePriors_pos (n : String) :
    0 < (featurePriors n).1 ∧ 0 < (featurePriors n).2 := by
  unfold featurePriors
  cases hg : assocGet FEATURE_PRIORS n with
  | none => norm_num
  | some p =>
    have hall : ∀ e ∈ FEATURE_PRIORS, 0 < e.2.1 ∧ 0 < e.2.2 := by decide
    exact hall _ (assocGet_mem _ _ _ hg)

theorem featureRatio_eq (stats : List (String × ℚ × ℚ)) (name : String) :
    featureRatio stats name =
      (statPosQ stats name + (featurePriors name).1) /
        (statNegQ stats name + (featurePriors name).2) := rfl

theorem featureRatio_pos (stats : List (String × ℚ × ℚ)) (name : String)
    (h : StatsNonneg stats) : 0 < featureRatio stats name := by
  rw [featureRatio_eq]
  have h1 := statPosQ_nonneg stats name h
  have h2 := statNegQ_nonneg stats name h
  have h3 := featurePriors_pos name
  exact div_pos (by linarith [h3.1]) (by linarith [h3.2])

theorem featureRatio_update_le (F : List String) (stats : List (String × ℚ × ℚ))
    (name : String) (h : StatsNonneg stats) :
    featureRatio stats name ≤
      featureRatio (F.foldl (fun s x => bumpStat s x true) stats) name := by
  rw [featureRatio_eq, featureRatio_eq]
  obtain ⟨hpos, hneg⟩ := foldl_bumpStat_true_effect F stats name
  rw [hneg]
  have h3 := featurePriors_pos name
  have h2 := statNegQ_nonneg stats name h
  have hd : 0 < statNegQ stats name + (featurePriors name).2 := by linarith [h3.2]
  exact (div_le_div_right hd).mpr (by linarith)

theorem foldl_ratio_pos_mono (F : List String) (st st' : List (String × ℚ × ℚ))
    (hratio : ∀ n, 0 < featureRatio st n ∧ featureRatio st n ≤ featureRatio st' n)
    (a a' : ℚ) (ha : 0 < a) (haa : a ≤ a') :
    0 < F.foldl (fun acc n => acc * featureRatio st n) a ∧
    F.foldl (fun acc n => acc * featureRatio st n) a ≤
      F.foldl (fun acc n => acc * featureRatio st' n) a' := by
  induction F generalizing a a' with
  | nil => exact ⟨ha, haa⟩
  | cons n F ih =>
    simp only [List.foldl_cons]
    apply ih
    · exact mul_pos ha (hratio n).1
    · exact mul_le_mul haa (hratio n).2 (le_of_lt (hratio n).1)
        (le_trans (le_of_lt ha) haa)

theorem logistic_mono (x y : ℚ) (hx : 0 < x) (hxy : x ≤ y) :
    x / (1 + x) ≤ y / (1 + y) := by
  have hy : 0 < y := lt_of_lt_of_le hx hxy
  rw [div_le_div_iff (by linarith) (by linarith)]
  nlinarith

theorem roundHalfEvenZ_mono (x y : ℚ) (h : x ≤ y) :
    roundHalfEvenZ x ≤ roundHalfEvenZ y := by
  have hfl : ⌊x⌋ ≤ ⌊y⌋ := Int.floor_le_floor h
  unfold roundHalfEvenZ
  simp only
  rcases lt_or_eq_of_le hfl with hlt | heq
  · split_ifs <;> omega
  · rw [← heq]
    have hr : x - (⌊x⌋ : ℚ) ≤ y - (⌊x⌋ : ℚ) := by linarith
    split_ifs <;> first | omega | linarith


theorem pyRound_mono (x y : ℚ) (p : ℕ) (h : x ≤ y) : pyRound x p ≤ pyRound y p := by
  unfold pyRound
  have h10 : (0 : ℚ) < 10 ^ p := by positivity
  have h1 : x * 10 ^ p ≤ y * 10 ^ p := mul_le_mul_of_nonneg_right h (le_of_lt h10)
  have h3 : ((roundHalfEvenZ (x * 10 ^ p) : ℚ)) ≤ (roundHalfEvenZ (y * 10 ^ p) : ℚ) := by
    exact_mod_cast roundHalfEvenZ_mono _ _ h1
  exact (div_le_div_right h10).mpr h3

/-- A positively-labelled update can only raise the exponentiated logit, on
any feature list evaluated afterwards. -/
theorem scoreOdds_pos_le (s : LearningState) (F G : List String) (hs : s.Nonneg) :
    0 < scoreOdds s G ∧ scoreOdds s G ≤ scoreOdds (updateStats s F true) G := by
  obtain ⟨htp, htn, hstats⟩ := hs
  unfold scoreOdds updateStats BIAS_PRIOR_POSITIVE BIAS_PRIOR_NEGATIVE
  simp only [if_true]
  apply foldl_ratio_pos_mono
  · intro n
    exact ⟨featureRatio_pos _ n hstats, featureRatio_update_le F _ n hstats⟩
  · exact div_pos (by linarith) (by linarith)
  · have hd : (0 : ℚ) < s.total_negative + 3 := by linarith
    exact (div_le_div_right hd).mpr (by linarith)

/-- C7: recording one positively-labelled feedback item never lowers the
confidence a subsequent `annotate_result` assigns to an item with the same
derived feature set. -/
theorem c7_record_feedback_monotone (s : LearningState) (ctx : Option String)
    (rated it : BOMItem) (hs : s.Nonneg)
    (hf : itemFeatures rated ctx = itemFeatures it ctx) :
    ∃ c c' : ℚ,
      (annotateItem s ctx it).confidence = some c ∧
      (annotateItem (recordFeedback s [(rated, true)] ctx) ctx it).confidence = some c' ∧
      c ≤ c' := by
  refine ⟨_, _, annotateItem_confidence _ _ _, annotateItem_confidence _ _ _, ?_⟩
  apply pyRound_mono
  have hrf : recordFeedback s [(rated, true)] ctx =
      updateStats s (itemFeatures rated ctx) true := rfl
  rw [hrf, hf]
  unfold scoreFromFeatures
  obtain ⟨hp, hle⟩ := scoreOdds_pos_le s (itemFeatures it ctx) (itemFeatures it ctx) hs
  exact logistic_mono _ _ hp hle

unseal Rat.add Rat.mul Rat.sub Rat.inv in
/-- Witness for C7 at the initial (empty) learner state and a concrete
text-fallback item. -/
theorem c7_record_feedback_monotone_witness :
    LearningState.Nonneg { } ∧
    (∃ c c' : ℚ,
      (annotateItem { } (some "interpreted")
        { description := some "Rohr DN50", quantity := some (PyNum.int 2),
          extras := [("source", "text")] }).confidence = some c ∧
      (annotateItem
        (recordFeedback { }
          [({ description := some "Rohr DN50", quantity := some (PyNum.int 2),
              extras := [("source", "text")] }, true)] (some "interpreted"))
        (some "interpreted")
        { description := some "Rohr DN50", quantity := some (PyNum.int 2),
          extras := [("source", "text")] }).confidence = some c' ∧
      c ≤ c') :=
  ⟨by decide,
   c7_record_feedback_monotone { } (some "interpreted")
     { description := some "Rohr DN50", quantity := some (PyNum.int 2),
       extras := [("source", "text")] }
     { description := some "Rohr DN50", quantity := some (PyNum.int 2),
       extras := [("source", "text")] }
     (by decide) rfl⟩

/-! ## Lemmas about `_parse_quantity` (claims C4 and C10) -/

theorem takeWhile_digits_append (ds r : List Char)
    (hds : ∀ c ∈ ds, isAsciiDigit c = true)
    (hr : ∀ c, r.head? = some c → isAsciiDigit c = false) :
    (ds ++ r).takeWhile isAsciiDigit = ds := by
  induction ds with
  | nil =>
    cases r with
    | nil => rfl
    | cons c r' => simp [List.takeWhile_cons_of_neg, hr c rfl]
  | cons d ds ih =>
    have hd : isAsciiDigit d = true := hds d (List.mem_cons_self _ _)
    simp only [List.cons_append, List.takeWhile_cons_of_pos hd]
    rw [ih (fun c hc => hds c (List.mem_cons_of_mem _ hc))]

theorem dropWhile_digits_append (ds r : List Char)
    (hds : ∀ c ∈ ds, isAsciiDigit c = true)
    (hr : ∀ c, r.head? = some c → isAsciiDigit c = false) :
    (ds ++ r).dropWhile isAsciiDigit = r := by
  induction ds with
  | nil =>
    cases r with
    | nil => rfl
    | cons c r' => simp [List.dropWhile_cons_of_neg, hr c rfl]
  | cons d ds ih =>
    have hd : isAsciiDigit d = true := hds d (List.mem_cons_self _ _)
    simp only [List.cons_append, List.dropWhile_cons_of_pos hd]
    exact ih (fun c hc => hds c (List.mem_cons_of_mem _ hc))

theorem span_digits_append (ds r : List Char)
    (hds : ∀ c ∈ ds, isAsciiDigit c = true)
    (hr : ∀ c, r.head? = some c → isAsciiDigit c = false) :
    (ds ++ r).span isAsciiDigit = (ds, r) := by
  rw [List.span_eq_take_drop, takeWhile_digits_append ds r hds hr,
    dropWhile_digits_append ds r hds hr]

theorem dropWhile_of_all_neg {p : Char → Bool} (l : List Char)
    (h : ∀ c ∈ l, p c = false) : l.dropWhile p = l := by
  cases l with
  | nil => rfl
  | cons c r => simp [List.dropWhile_cons_of_neg, h c (List.mem_cons_self _ _)]

theorem stripList_of_no_ws (l : List Char) (h : ∀ c ∈ l, isPyWs c = false) :
    stripList l = l := by
  unfold stripList
  rw [dropWhile_of_all_neg l h, dropWhile_of_all_neg l.reverse
    (fun c hc => h c (List.mem_reverse.mp hc)), List.reverse_reverse]

theorem digit_not_ws (c : Char) (h : isAsciiDigit c = true) : isPyWs c = false := by
  unfold isAsciiDigit at h
  unfold isPyWs
  by_contra hw
  simp only [Bool.not_eq_false, Bool.or_eq_true, decide_eq_true_eq] at hw
  rcases hw with ((((h1 | h1) | h1) | h1) | h1) | h1 <;> subst h1 <;> simp_all

theorem digit_comma_fix (c : Char) (h : isAsciiDigit c = true) :
    (if c = ',' then '.' else c) = c := by
  unfold isAsciiDigit at h
  by_cases hc : c = ','
  · subst hc; simp_all
  · simp [hc]

theorem digitsToNat_foldl_init (b : List Char) (i : ℕ) :
    List.foldl (fun a c => a * 10 + (c.toNat - 48)) i b =
      i * 10 ^ b.length + digitsToNat b := by
  induction b generalizing i with
  | nil => simp [digitsToNat]
  | cons c b ih =>
    simp only [List.foldl_cons, List.length_cons]
    rw [ih (i * 10 + (c.toNat - 48))]
    have h2 : digitsToNat (c :: b) = (c.toNat - 48) * 10 ^ b.length + digitsToNat b := by
      have h3 := ih (0 * 10 + (c.toNat - 48))
      simpa [digitsToNat] using h3
    rw [h2]; ring

theorem digitsToNat_append (a b : List Char) :
    digitsToNat (a ++ b) = digitsToNat a * 10 ^ b.length + digitsToNat b := by
  show List.foldl (fun a c => a * 10 + (c.toNat - 48)) 0 (a ++ b) = _
  rw [List.foldl_append]
  exact digitsToNat_foldl_init b (digitsToNat a)

end BomSpec
